import Mathlib

/-!
Shallow embedding of the nosql_yorm model layer (`src/fireorm/models.py`):
the dual-mode (test cache vs live store) CRUD operations of
`BaseFirebaseModel`.  Field values are modelled by `Value`, documents
(field mappings) by association lists preserving insertion order, Python
datetimes by natural-number timestamps, and the two stores by nested
association lists.  The in-memory cache adapter
(`fireorm.cache.cache_handler`) and the document-database client are not
part of `src/`; their operations are modelled from the spec, as marked on
each such definition.  The randomly generated pseudo-id and the server
timestamp sentinel are modelled as explicit parameters (`fresh_id`,
`now`) of the operations that use them.
-/

/-- A field value of a document: null (Python `None`), string, number
(standing in for both ints and datetimes), or a list.  The only
list-valued fields the spec and claims exercise are lists of strings
(`tags`, membership lists of a query), so lists are modelled as lists of
strings. -/
inductive Value where
  | vnull : Value
  | vstr : String → Value
  | vnat : Nat → Value
  | vlist : List String → Value

/-- Structural equality of values, as Python `==` on the modelled types. -/
def valueEq : Value → Value → Bool
  | .vnull, .vnull => true
  | .vstr a, .vstr b => a == b
  | .vnat a, .vnat b => a == b
  | .vlist a, .vlist b => a == b
  | _, _ => false

/-- Python truthiness of the modelled values: `None`, `""`, `0` and `[]`
are falsy. -/
def truthy : Value → Bool
  | .vnull => false
  | .vstr s => !s.isEmpty
  | .vnat n => n != 0
  | .vlist l => !l.isEmpty

/-- Python `v in c` for the containers the claims exercise: membership in a
list.  (On non-sequence values Python `in` raises; the claims restrict the
container to list-valued fields, so other shapes are mapped to `false`.) -/
def pyIn (v : Value) : Value → Bool
  | .vlist l =>
      match v with
      | .vstr s => l.contains s
      | _ => false
  | _ => false

/-- A document: the untyped field-name-to-value mapping of the spec,
modelled as an association list in insertion order (Python dicts preserve
insertion order). -/
abbrev Doc := List (String × Value)

/-- Lookup in an association list (Python `dict.get`). -/
def assocGet {α β : Type} [DecidableEq α] : List (α × β) → α → Option β
  | [], _ => none
  | (k, v) :: rest, key => if k = key then some v else assocGet rest key

/-- Key assignment in an association list (Python `d[key] = val`): replaces
in place when the key exists, appends otherwise. -/
def assocSet {α β : Type} [DecidableEq α] : List (α × β) → α → β → List (α × β)
  | [], key, val => [(key, val)]
  | (k, v) :: rest, key, val =>
      if k = key then (key, val) :: rest else (k, v) :: assocSet rest key val

/-- Key removal from an association list (Python `d.pop(key, None)`). -/
def assocErase {α β : Type} [DecidableEq α] : List (α × β) → α → List (α × β)
  | [], _ => []
  | (k, v) :: rest, key => if k = key then rest else (k, v) :: assocErase rest key

/-- Python `old.update(upd)` field by field, also the field-level semantics
of the live client's set-with-merge. -/
def docUpdate (old upd : Doc) : Doc :=
  upd.foldl (fun acc kv => assocSet acc kv.1 kv.2) old

/-- The record type of `models.py`: optional id, optional creation and
update timestamps, and the concrete subclass's additional fields, kept as
a field mapping in declaration order. -/
structure BaseFirebaseModel where
  id : Option String := none
  created_at : Option Nat := none
  updated_at : Option Nat := none
  fields : List (String × Value) := []

def optStrVal : Option String → Value
  | none => .vnull
  | some s => .vstr s

def optNatVal : Option Nat → Value
  | none => .vnull
  | some n => .vnat n

def valOptStr : Value → Option String
  | .vstr s => some s
  | _ => none

def valOptNat : Value → Option Nat
  | .vnat n => some n
  | _ => none

/-- Pydantic `self.dict()`: the record's fields in declaration order
(`id`, `created_at`, `updated_at`, then the subclass fields). -/
def BaseFirebaseModel.dict (r : BaseFirebaseModel) : Doc :=
  ("id", optStrVal r.id) :: ("created_at", optNatVal r.created_at)
    :: ("updated_at", optNatVal r.updated_at) :: r.fields

/-- The three field names declared by the base model itself. -/
def reservedKey (k : String) : Bool :=
  k == "id" || k == "created_at" || k == "updated_at"

/-- Pydantic `cls(**doc)`: reconstruct a record from a field mapping;
missing keys fall back to the `None` defaults. -/
def BaseFirebaseModel.ofDict (d : Doc) : BaseFirebaseModel :=
  { id := (assocGet d "id").bind valOptStr
    created_at := (assocGet d "created_at").bind valOptNat
    updated_at := (assocGet d "updated_at").bind valOptNat
    fields := d.filter (fun kv => !reservedKey kv.1) }

/-- Live-mode reconstruction `cls(id=doc.id, **data)` after the code pops
the `id` key from the raw mapping: the store-assigned id overrides. -/
def BaseFirebaseModel.ofDictWithId (docId : String) (d : Doc) : BaseFirebaseModel :=
  { BaseFirebaseModel.ofDict (assocErase d "id") with id := some docId }

/-- Python `setattr(self, k, v)` on a record (pydantic does not validate
on assignment; the claims only assign strings to `id` and numbers to the
timestamps, which the coercions below reflect). -/
def setField (r : BaseFirebaseModel) (k : String) (v : Value) : BaseFirebaseModel :=
  if k = "id" then { r with id := valOptStr v }
  else if k = "created_at" then { r with created_at := valOptNat v }
  else if k = "updated_at" then { r with updated_at := valOptNat v }
  else { r with fields := assocSet r.fields k v }

/-- The in-memory cache: collection name to (document id to field mapping).
Keys are `Option String` because Python passes `self.id`, which may be
`None`, as a dict key. -/
abbrev Coll := List (Option String × Doc)

abbrev Store := List (String × Coll)

/-- A live-store collection: server document ids to field mappings. -/
abbrev LiveColl := List (String × Doc)

abbrev LiveStore := List (String × LiveColl)

/-- Modelled from the spec: the in-memory adapter is a process-local
mapping from collection name to a mapping from document id to field
mapping; an untouched collection is empty. -/
def getCollection (s : Store) (cn : String) : Coll :=
  (assocGet s cn).getD []

def setCollection (s : Store) (cn : String) (c : Coll) : Store :=
  assocSet s cn c

/-- Modelled from the spec: `cache_handler.get_document`, exact-match
lookup by id in the in-memory adapter. -/
def get_document (s : Store) (cn : String) (k : Option String) : Option Doc :=
  assocGet (getCollection s cn) k

/-- Modelled from the spec: `cache_handler.add_document` stores the field
mapping under the given id. -/
def add_document (s : Store) (cn : String) (k : Option String) (d : Doc) : Store :=
  setCollection s cn (assocSet (getCollection s cn) k d)

/-- Modelled from the spec: `cache_handler.update_document` writes the full
post-merge record into the in-memory store. -/
def update_document (s : Store) (cn : String) (k : Option String) (d : Doc) : Store :=
  add_document s cn k d

/-- Modelled from the spec: list every document of a collection, in store
order (deterministic). -/
def list_collection (s : Store) (cn : String) : List Doc :=
  (getCollection s cn).map (fun kv => kv.2)

/-- Modelled from the spec: one equality / membership filter of
`query_params` (field to scalar means equality, field to list means
membership), the same semantics the live query translator uses. -/
def qpMatch (d : Doc) (kv : String × Value) : Bool :=
  match kv.2 with
  | .vlist l =>
      match assocGet d kv.1 with
      | some (.vstr s) => l.contains s
      | _ => false
  | v =>
      match assocGet d kv.1 with
      | some w => valueEq w v
      | none => false

/-- Modelled from the spec: `cache_handler.query_collection`, linear-scan
filtering of a collection with the equality / membership semantics of
`query_params`; an empty mapping (Python `None`) applies no filter. -/
def query_collection (s : Store) (cn : String) (qp : List (String × Value)) : List Doc :=
  (list_collection s cn).filter (fun d => qp.all (qpMatch d))

/-- One `array_contains` check of `get_page` in test mode, from the source:
`doc.get(key) and value in doc.get(key)` — a missing or falsy field fails,
otherwise Python membership. -/
def acMatch (d : Doc) (kv : String × Value) : Bool :=
  match assocGet d kv.1 with
  | some c => truthy c && pyIn kv.2 c
  | none => false

/-- Modelled from the spec: the live store's native array-contains
predicate (matches documents whose named field is a list containing the
value). -/
def liveAcMatch (d : Doc) (kv : String × Value) : Bool :=
  match assocGet d kv.1 with
  | some (.vlist l) =>
      match kv.2 with
      | .vstr s => l.contains s
      | _ => false
  | _ => false

/-- Modelled from the spec: the live client's set-with-merge writes the
given fields over the stored document (creating it when absent). -/
def set_merge (c : LiveColl) (k : String) (d : Doc) : LiveColl :=
  assocSet c k (docUpdate ((assocGet c k).getD []) d)

def getLiveColl (s : LiveStore) (cn : String) : LiveColl :=
  (assocGet s cn).getD []

def setLiveColl (s : LiveStore) (cn : String) (c : LiveColl) : LiveStore :=
  assocSet s cn c

/-- Python falsiness of `self.id` (`not self.id`): `None` or the empty
string. -/
def idFalsy : Option String → Bool
  | none => true
  | some s => s.isEmpty

/-- `BaseFirebaseModel.get_by_id` from `models.py`.  `test_mode` is the
resolved mode flag (the source substitutes the ambient config flag when
the argument is `None`).  Test mode: cache lookup, reconstruct when the
mapping is truthy (non-empty).  Live mode: fetch the snapshot, pop `id`
from the raw data, and reconstruct with the store-assigned id when the
document exists, `None` otherwise. -/
def BaseFirebaseModel.get_by_id (cn : String) (doc_id : String) (test_mode : Bool)
    (cache : Store) (live : LiveStore) : Option BaseFirebaseModel :=
  if test_mode then
    match get_document cache cn (some doc_id) with
    | some doc_data =>
        if doc_data.isEmpty then none else some (BaseFirebaseModel.ofDict doc_data)
    | none => none
  else
    match assocGet (getLiveColl live cn) doc_id with
    | some data => some (BaseFirebaseModel.ofDictWithId doc_id data)
    | none => none

/-- `BaseFirebaseModel.get_by_ids` from `models.py`: loop over the input
ids in order, appending the reconstruction of each found (truthy)
document. -/
def BaseFirebaseModel.get_by_ids (cn : String) (doc_ids : List String) (test_mode : Bool)
    (cache : Store) (live : LiveStore) : List BaseFirebaseModel :=
  if test_mode then
    doc_ids.foldl (fun documents doc_id =>
      match get_document cache cn (some doc_id) with
      | some doc_data =>
          if doc_data.isEmpty then documents
          else documents ++ [BaseFirebaseModel.ofDict doc_data]
      | none => documents) []
  else
    doc_ids.foldl (fun documents doc_id =>
      match assocGet (getLiveColl live cn) doc_id with
      | some data =>
          if data.isEmpty then documents
          else documents ++ [BaseFirebaseModel.ofDictWithId doc_id data]
      | none => documents) []

/-- `BaseFirebaseModel.get_page` from `models.py`.  `page` is modelled as a
natural number (the claims only use pages from 1 up; Python's negative
slice indices for `page = 0` are out of scope).  Test mode: query the
cache, filter by `array_contains` when non-empty, then slice
`[start:end]`.  Live mode (modelled from the spec): push the filters into
the query, apply offset and limit, and reconstruct with the
store-assigned ids. -/
def BaseFirebaseModel.get_page (cn : String) (page page_size : Nat)
    (query_params array_contains : List (String × Value)) (test_mode : Bool)
    (cache : Store) (live : LiveStore) : List BaseFirebaseModel :=
  let start := (page - 1) * page_size
  let stop := start + page_size
  if test_mode then
    let all_docs := query_collection cache cn query_params
    let all_docs :=
      if array_contains.isEmpty then all_docs
      else all_docs.filter (fun d => array_contains.all (acMatch d))
    ((all_docs.drop start).take (stop - start)).map BaseFirebaseModel.ofDict
  else
    let docs := (getLiveColl live cn).filter (fun kv =>
      query_params.all (qpMatch kv.2) && array_contains.all (liveAcMatch kv.2))
    ((docs.drop start).take page_size).map
      (fun kv => BaseFirebaseModel.ofDictWithId kv.1 kv.2)

/-- `BaseFirebaseModel.save` from `models.py`.  `fresh_id` stands for the
random pseudo-id of `generate_fake_firebase_id` (test mode) and for the
store-generated id of `collection.add` (live mode); `now` is the write
time the live store substitutes for the `SERVER_TIMESTAMP` sentinel.
Test mode: pick `self.id or fake`, store `self.dict()` (taken before the
id is assigned back), then set `self.id`; `generate_new_id` is not
consulted.  Live mode: insert when id is falsy or `generate_new_id`,
excluding id and the timestamps from the payload and stamping both
timestamps; otherwise set-with-merge the full dict with `updated_at`
stamped. -/
def BaseFirebaseModel.save (r : BaseFirebaseModel) (generate_new_id : Bool)
    (test_mode : Bool) (cn : String) (fresh_id : String) (now : Nat)
    (cache : Store) (live : LiveStore) :
    BaseFirebaseModel × Store × LiveStore :=
  if test_mode then
    let document_id :=
      match r.id with
      | some s => if s.isEmpty then fresh_id else s
      | none => fresh_id
    let cache1 := add_document cache cn (some document_id) r.dict
    ({ r with id := some document_id }, cache1, live)
  else
    if idFalsy r.id || generate_new_id then
      let data := assocSet (assocSet r.fields "created_at" (.vnat now))
        "updated_at" (.vnat now)
      let live1 := setLiveColl live cn (assocSet (getLiveColl live cn) fresh_id data)
      ({ r with id := some fresh_id }, cache, live1)
    else
      let data := assocSet r.dict "updated_at" (.vnat now)
      let live1 := setLiveColl live cn
        (set_merge (getLiveColl live cn) (r.id.getD "") data)
      (r, cache, live1)

/-- The first update loop of `merge` (and, with the extended exclusions,
its second): `for key, value in update_data.items(): if key not in
exclude_props: setattr(self, key, value)`. -/
def applyUpdates (r : BaseFirebaseModel) (update_data : List (String × Value))
    (exclude_props : List String) : BaseFirebaseModel :=
  update_data.foldl
    (fun acc kv => if exclude_props.contains kv.1 then acc else setField acc kv.1 kv.2) r

/-- `BaseFirebaseModel.merge` from `models.py`.  The update loop runs once
before the mode dispatch with only the caller's exclusions.  Test mode
then writes the full post-merge dict to the cache under the (possibly
just-updated) id.  Live mode extends `exclude_props` in place with
`created_at` (and `id` unless `overwrite_id`) and runs the loop again;
it performs no store write.  The returned `List String` is the caller's
`exclude_props` list object after the call, modelling the in-place
`extend`. -/
def BaseFirebaseModel.merge (r : BaseFirebaseModel) (update_data : List (String × Value))
    (overwrite_id : Bool) (exclude_props : List String) (test_mode : Bool)
    (cn : String) (cache : Store) :
    BaseFirebaseModel × List String × Store :=
  let r1 := applyUpdates r update_data exclude_props
  if test_mode then
    (r1, exclude_props, update_document cache cn r1.id r1.dict)
  else
    let exclude1 := exclude_props ++
      (if overwrite_id then ["created_at"] else ["id", "created_at"])
    (applyUpdates r1 update_data exclude1, exclude1, cache)

/-- Ceiling of `n / p`, the number of pages of the pagination claim. -/
def ceilDiv (n p : Nat) : Nat := (n + p - 1) / p

/-- The document list `get_page` slices in test mode: query filtering,
then array-contains filtering. -/
def filteredDocs (cache : Store) (cn : String) (qp ac : List (String × Value)) : List Doc :=
  let all_docs := query_collection cache cn qp
  if ac.isEmpty then all_docs else all_docs.filter (fun d => ac.all (acMatch d))

/-- Spec-side predicate for the array-contains claim: the document's
`tags` field is a list containing the string "red". -/
def tagsHasRed (d : Doc) : Bool :=
  match assocGet d "tags" with
  | some (.vlist l) => l.contains "red"
  | _ => false

/-- The optional value is a list. -/
def listValued (o : Option Value) : Bool :=
  match o with
  | some (.vlist _) => true
  | _ => false

/-- The subclass field mapping uses none of the base model's own field
names. -/
def reservedFree (fs : List (String × Value)) : Prop :=
  ∀ kv ∈ fs, reservedKey kv.1 = false

instance (fs : List (String × Value)) : Decidable (reservedFree fs) := by
  unfold reservedFree
  infer_instance

/-! ## Association-list and serialization lemmas -/

theorem assocGet_set_self {α β : Type} [DecidableEq α] (l : List (α × β)) (k : α) (v : β) :
    assocGet (assocSet l k v) k = some v := by
  induction l with
  | nil => simp [assocGet, assocSet]
  | cons p rest ih =>
      obtain ⟨pk, pv⟩ := p
      by_cases h : pk = k
      · simp [assocSet, assocGet, h]
      · simp [assocSet, assocGet, h, ih]

theorem assocGet_set_ne {α β : Type} [DecidableEq α] (l : List (α × β)) (k k2 : α) (v : β)
    (h : k2 ≠ k) : assocGet (assocSet l k2 v) k = assocGet l k := by
  have h' : k ≠ k2 := Ne.symm h
  induction l with
  | nil => simp [assocGet, assocSet, h, h']
  | cons p rest ih =>
      obtain ⟨pk, pv⟩ := p
      by_cases h2 : pk = k2
      · subst h2
        simp [assocSet, assocGet, h, h']
      · by_cases h3 : pk = k
        · simp [assocSet, assocGet, h2, h3, h, h']
        · simp [assocSet, assocGet, h2, h3, ih]

theorem assocGet_mem {α β : Type} [DecidableEq α] (l : List (α × β)) (k : α) (v : β)
    (h : assocGet l k = some v) : (k, v) ∈ l := by
  induction l with
  | nil => simp [assocGet] at h
  | cons p rest ih =>
      obtain ⟨pk, pv⟩ := p
      by_cases h2 : pk = k
      · subst h2
        simp [assocGet] at h
        subst h
        exact List.mem_cons_self _ _
      · simp [assocGet, h2] at h
        exact List.mem_cons_of_mem _ (ih h)

theorem docUpdate_cons (old : Doc) (kv : String × Value) (d : Doc) :
    docUpdate old (kv :: d) = docUpdate (assocSet old kv.1 kv.2) d := rfl

theorem docUpdate_get_not_mem (old d : Doc) (k : String) (h : ∀ kv ∈ d, kv.1 ≠ k) :
    assocGet (docUpdate old d) k = assocGet old k := by
  induction d generalizing old with
  | nil => rfl
  | cons kv rest ih =>
      rw [docUpdate_cons, ih _ (fun x hx => h x (List.mem_cons_of_mem _ hx))]
      exact assocGet_set_ne old k kv.1 kv.2 (h kv (List.mem_cons_self _ _))

theorem valOptStr_optStrVal (o : Option String) : valOptStr (optStrVal o) = o := by
  cases o <;> rfl

theorem valOptNat_optNatVal (o : Option Nat) : valOptNat (optNatVal o) = o := by
  cases o <;> rfl

/-- Reconstructing a record from its own serialization is the identity as
long as the subclass fields do not reuse the base field names. -/
theorem ofDict_dict (r : BaseFirebaseModel) (h : reservedFree r.fields) :
    BaseFirebaseModel.ofDict r.dict = r := by
  obtain ⟨i, c, u, fs⟩ := r
  simp only [reservedFree] at h
  simp [BaseFirebaseModel.ofDict, BaseFirebaseModel.dict, assocGet, reservedKey,
    valOptStr_optStrVal, valOptNat_optNatVal]
  intro a b hab
  have h2 := h (a, b) hab
  simp [reservedKey] at h2
  tauto

theorem get_document_add_self (s : Store) (cn : String) (k : Option String) (d : Doc) :
    get_document (add_document s cn k d) cn k = some d := by
  unfold get_document add_document getCollection setCollection
  rw [assocGet_set_self]
  simp [assocGet_set_self]

/-! ## Pagination lemmas -/

theorem ceilDiv_succ (m P : Nat) (hP : 1 ≤ P) (hm : 1 ≤ m) :
    ceilDiv m P = ceilDiv (m - P) P + 1 := by
  unfold ceilDiv
  rcases Nat.le_total P m with hPm | hPm
  · have e1 : m + P - 1 = (m - 1) + P := by omega
    have e2 : m - P + P - 1 = m - 1 := by omega
    rw [e1, e2, Nat.add_div_right _ hP]
  · have e1 : m - P = 0 := Nat.sub_eq_zero_of_le hPm
    have e2 : (0 + P - 1) / P = 0 := by
      rw [Nat.zero_add]
      exact Nat.div_eq_of_lt (by omega)
    have e3 : m + P - 1 = (m - 1) + P := by omega
    rw [e1, e2, e3, Nat.add_div_right _ hP, Nat.div_eq_of_lt (by omega)]

theorem chunkFlatten {α : Type} (P : Nat) (hP : 1 ≤ P) :
    ∀ (n : Nat) (l : List α), l.length ≤ n →
      (List.range (ceilDiv l.length P)).flatMap (fun i => (l.drop (i * P)).take P) = l := by
  intro n
  induction n with
  | zero =>
      intro l hl
      have h0 : l = [] := List.eq_nil_of_length_eq_zero (Nat.le_zero.mp hl)
      subst h0
      simp [ceilDiv, Nat.div_eq_of_lt (by omega : P - 1 < P)]
  | succ n ih =>
      intro l hl
      cases l with
      | nil => simp [ceilDiv, Nat.div_eq_of_lt (by omega : P - 1 < P)]
      | cons a t =>
          have hm1 : 1 ≤ (a :: t).length := by simp
          rw [ceilDiv_succ (a :: t).length P hP hm1, List.range_succ_eq_map,
            List.flatMap_cons, List.flatMap_map]
          have hdrop : ∀ i : Nat, ((a :: t).drop (Nat.succ i * P)).take P
              = (((a :: t).drop P).drop (i * P)).take P := by
            intro i
            rw [List.drop_drop, Nat.succ_mul, Nat.add_comm]
          simp only [hdrop]
          have hlen2 : ((a :: t).drop P).length = (a :: t).length - P :=
            List.length_drop P (a :: t)
          have hrec := ih ((a :: t).drop P)
            (by rw [hlen2]; simp only [List.length_cons]; simp only [List.length_cons] at hl; omega)
          rw [← hlen2, hrec]
          simp [List.take_append_drop]

/-- In test mode `get_page` is: filter, then slice the page window. -/
theorem get_page_test (cn : String) (page page_size : Nat) (qp ac : List (String × Value))
    (cache : Store) (live : LiveStore) :
    BaseFirebaseModel.get_page cn page page_size qp ac true cache live
      = (((filteredDocs cache cn qp ac).drop ((page - 1) * page_size)).take page_size).map
          BaseFirebaseModel.ofDict := by
  unfold BaseFirebaseModel.get_page filteredDocs
  simp [Nat.add_sub_cancel_left]

/-- C6: concatenating the test-mode pages 1 .. ceil(N/P) of a filtered
collection of N documents yields exactly the filtered record set, with no
duplicates and no omissions (the concatenation is literally the filtered
list), the filters being applied before the page window is sliced. -/
theorem C6_pagination_roundtrip (cache : Store) (live : LiveStore) (cn : String)
    (qp ac : List (String × Value)) (P : Nat) (hP : 1 ≤ P) :
    (List.range (ceilDiv (filteredDocs cache cn qp ac).length P)).flatMap
        (fun i => BaseFirebaseModel.get_page cn (i + 1) P qp ac true cache live)
      = (filteredDocs cache cn qp ac).map BaseFirebaseModel.ofDict := by
  have h1 : ∀ i : Nat, BaseFirebaseModel.get_page cn (i + 1) P qp ac true cache live
      = (((filteredDocs cache cn qp ac).drop (i * P)).take P).map BaseFirebaseModel.ofDict := by
    intro i
    rw [get_page_test]
    simp
  simp only [h1]
  rw [← List.map_flatMap,
    chunkFlatten P hP (filteredDocs cache cn qp ac).length (filteredDocs cache cn qp ac) le_rfl]

/-! ## Further helper lemmas -/

theorem docUpdate_append (old d1 d2 : Doc) :
    docUpdate old (d1 ++ d2) = docUpdate (docUpdate old d1) d2 := by
  simp [docUpdate, List.foldl_append]

/-- The last write of a key through a field-by-field update wins; later
entries not touching the key do not disturb it. -/
theorem docUpdate_get_last (old d1 d2 : Doc) (k : String) (v : Value)
    (h : ∀ kv ∈ d2, kv.1 ≠ k) :
    assocGet (docUpdate old (d1 ++ (k, v) :: d2)) k = some v := by
  rw [docUpdate_append, docUpdate_cons, docUpdate_get_not_mem _ _ _ h]
  exact assocGet_set_self _ _ _

theorem setField_updated_at (r : BaseFirebaseModel) (k : String) (v : Value)
    (h : k ≠ "updated_at") : (setField r k v).updated_at = r.updated_at := by
  unfold setField
  split_ifs <;> simp_all

theorem applyUpdates_cons (r : BaseFirebaseModel) (kv : String × Value)
    (rest : List (String × Value)) (ex : List String) :
    applyUpdates r (kv :: rest) ex
      = applyUpdates (if ex.contains kv.1 then r else setField r kv.1 kv.2) rest ex := rfl

theorem applyUpdates_updated_at (r : BaseFirebaseModel) (ud : List (String × Value))
    (ex : List String) (h : ∀ kv ∈ ud, kv.1 ≠ "updated_at") :
    (applyUpdates r ud ex).updated_at = r.updated_at := by
  induction ud generalizing r with
  | nil => rfl
  | cons kv rest ih =>
      rw [applyUpdates_cons, ih _ (fun x hx => h x (List.mem_cons_of_mem _ hx))]
      by_cases hc : kv.1 ∈ ex
      · simp [hc]
      · simp [hc, setField_updated_at _ _ _ (h kv (List.mem_cons_self _ _))]

/-! ## Claims -/

/-- C1, corrected.  The claim says the test-mode round trip returns a
record equal to the saved one except that the timestamps are now
populated.  In the code, test-mode save stores `self.dict()` before
assigning the id and stamps nothing, so fetching by the assigned id
returns the record exactly as it was before the save: id still `none`,
`created_at` and `updated_at` still unpopulated.  Amended statement: for
a new record (id absent, subclass fields not reusing base field names),
save in test mode assigns the pseudo-id to the in-memory record, and
`get_by_id` on that id returns a record equal to the pre-save record in
every field. -/
theorem C1_roundtrip_amended (r : BaseFirebaseModel) (cache : Store) (live : LiveStore)
    (cn fid : String) (now : Nat)
    (hid : r.id = none) (hf : reservedFree r.fields) :
    (r.save false true cn fid now cache live).1.id = some fid ∧
    BaseFirebaseModel.get_by_id cn fid true (r.save false true cn fid now cache live).2.1
        (r.save false true cn fid now cache live).2.2
      = some r := by
  have hsave : r.save false true cn fid now cache live
      = ({ r with id := some fid }, add_document cache cn (some fid) r.dict, live) := by
    unfold BaseFirebaseModel.save
    rw [hid]
    simp
  rw [hsave]
  refine ⟨rfl, ?_⟩
  unfold BaseFirebaseModel.get_by_id
  simp [get_document_add_self, show (r.dict).isEmpty = false from rfl, ofDict_dict r hf]

/-- C1 witness: the amended round trip at a concrete record. -/
theorem C1_roundtrip_amended_witness :
    (({ fields := [("name", Value.vstr "a")] } : BaseFirebaseModel).id = none
      ∧ reservedFree ([("name", Value.vstr "a")] : List (String × Value)))
    ∧ ((({ fields := [("name", Value.vstr "a")] } : BaseFirebaseModel).save false true
          "Things" "k1k1k1k1k1k1k1k1k1k1" 7 [] []).1.id = some "k1k1k1k1k1k1k1k1k1k1"
      ∧ BaseFirebaseModel.get_by_id "Things" "k1k1k1k1k1k1k1k1k1k1" true
          (({ fields := [("name", Value.vstr "a")] } : BaseFirebaseModel).save false true
            "Things" "k1k1k1k1k1k1k1k1k1k1" 7 [] []).2.1
          (({ fields := [("name", Value.vstr "a")] } : BaseFirebaseModel).save false true
            "Things" "k1k1k1k1k1k1k1k1k1k1" 7 [] []).2.2
        = some { fields := [("name", Value.vstr "a")] }) :=
  ⟨⟨rfl, by decide⟩,
    C1_roundtrip_amended { fields := [("name", Value.vstr "a")] } [] []
      "Things" "k1k1k1k1k1k1k1k1k1k1" 7 rfl (by decide)⟩

/-- C1 counterexample: saving a fresh record in test mode and fetching by
the assigned id returns the pre-save record — `created_at` and
`updated_at` are still `none` (not populated, contradicting the claim),
and the stored id field is still `none` although save assigned
`"k1k1k1k1k1k1k1k1k1k1"` to the in-memory record. -/
theorem C1_roundtrip_cex :
    BaseFirebaseModel.get_by_id "Things" "k1k1k1k1k1k1k1k1k1k1" true
        (({ fields := [("name", Value.vstr "a")] } : BaseFirebaseModel).save false true
          "Things" "k1k1k1k1k1k1k1k1k1k1" 7 [] []).2.1 []
      = some { id := none, created_at := none, updated_at := none,
               fields := [("name", Value.vstr "a")] }
    ∧ (({ fields := [("name", Value.vstr "a")] } : BaseFirebaseModel).save false true
        "Things" "k1k1k1k1k1k1k1k1k1k1" 7 [] []).1.id = some "k1k1k1k1k1k1k1k1k1k1" :=
  ⟨rfl, rfl⟩

/-- C2: evaluation of the code at the failing input.  In live mode the
first update loop of `merge` runs before the exclusion defaults are
computed, so `merge({"id": "x"}, overwrite_id=false)` changes the record's
id to `"x"` even though the parameter (and the source's own comment about
properties that shouldn't be overwritten) says it must not. -/
theorem C2_merge_live_id_eval :
    (({ id := some "orig" } : BaseFirebaseModel).merge [("id", Value.vstr "x")]
        false [] false "Things" []).1.id = some "x"
    ∧ (({ id := some "orig" } : BaseFirebaseModel).merge [("id", Value.vstr "x")]
        true [] false "Things" []).1.id = some "x" :=
  ⟨rfl, rfl⟩

/-- C3 counterexample: in test mode, saving a record that already has an
id with `generate_new_id = true` neither assigns a new id (the flag is not
consulted by the test branch) nor stamps the timestamps — the in-memory
record keeps id "abc" and `created_at = none`, and the stored document has
null timestamps. -/
theorem C3_insert_cex :
    (({ id := some "abc" } : BaseFirebaseModel).save true true "Things"
        "fresh5fresh5fresh5f5" 7 [] []).1.id = some "abc"
    ∧ (({ id := some "abc" } : BaseFirebaseModel).save true true "Things"
        "fresh5fresh5fresh5f5" 7 [] []).1.created_at = none
    ∧ get_document (({ id := some "abc" } : BaseFirebaseModel).save true true "Things"
        "fresh5fresh5fresh5f5" 7 [] []).2.1 "Things" (some "abc")
      = some [("id", Value.vstr "abc"), ("created_at", Value.vnull),
          ("updated_at", Value.vnull)] :=
  ⟨rfl, rfl, rfl⟩

/-- C3, corrected.  Amended statement: in live mode, whenever the record's
id is absent or empty, or `generate_new_id = true` (also with an existing
non-empty id), save behaves as an insert: the store-generated id is
assigned to the record and both `created_at` and `updated_at` are stamped
on the stored document (the in-memory timestamps are left as they were).
In test mode no timestamps are ever stamped and `generate_new_id` is
ignored: the locally generated pseudo-id is assigned exactly when the
record's id is absent or empty, and a record with a non-empty id keeps
it; in both cases the stored document is the unchanged `self.dict()`. -/
theorem C3_insert_amended (r : BaseFirebaseModel) (cache : Store) (live : LiveStore)
    (cn fid s : String) (now : Nat) (g : Bool)
    (hins : idFalsy r.id = true ∨ g = true) (hs : s.isEmpty = false) :
    ((r.save g false cn fid now cache live).1.id = some fid
      ∧ (r.save g false cn fid now cache live).1.created_at = r.created_at
      ∧ (r.save g false cn fid now cache live).1.updated_at = r.updated_at
      ∧ (∃ d, assocGet (getLiveColl (r.save g false cn fid now cache live).2.2 cn) fid = some d
          ∧ assocGet d "created_at" = some (Value.vnat now)
          ∧ assocGet d "updated_at" = some (Value.vnat now)))
    ∧ (idFalsy r.id = true →
        (r.save g true cn fid now cache live).1 = { r with id := some fid }
        ∧ get_document (r.save g true cn fid now cache live).2.1 cn (some fid) = some r.dict)
    ∧ ((({ r with id := some s } : BaseFirebaseModel).save true true cn fid now cache live).1
          = { r with id := some s }
      ∧ get_document (({ r with id := some s } : BaseFirebaseModel).save true true cn fid now
            cache live).2.1 cn (some s)
          = some ({ r with id := some s } : BaseFirebaseModel).dict) := by
  have hcond : (idFalsy r.id || g) = true := by
    rcases hins with h | h <;> simp [h]
  refine ⟨?_, ?_, ?_⟩
  · have hsave : r.save g false cn fid now cache live
        = ({ r with id := some fid }, cache,
            setLiveColl live cn (assocSet (getLiveColl live cn) fid
              (assocSet (assocSet r.fields "created_at" (.vnat now))
                "updated_at" (.vnat now)))) := by
      unfold BaseFirebaseModel.save
      simp [hcond]
    rw [hsave]
    refine ⟨rfl, rfl, rfl,
      ⟨assocSet (assocSet r.fields "created_at" (.vnat now)) "updated_at" (.vnat now),
        ?_, ?_, ?_⟩⟩
    · unfold getLiveColl setLiveColl
      rw [assocGet_set_self]
      show assocGet (assocSet (getLiveColl live cn) fid _) fid = _
      rw [assocGet_set_self]
    · rw [assocGet_set_ne _ _ _ _ (by decide), assocGet_set_self]
    · exact assocGet_set_self _ _ _
  · intro hid2
    have hsave : r.save g true cn fid now cache live
        = ({ r with id := some fid }, add_document cache cn (some fid) r.dict, live) := by
      unfold BaseFirebaseModel.save
      cases hr : r.id with
      | none => simp
      | some s2 =>
          rw [hr] at hid2
          simp [idFalsy] at hid2
          simp [hid2]
    rw [hsave]
    exact ⟨rfl, get_document_add_self _ _ _ _⟩
  · have hsave : ({ r with id := some s } : BaseFirebaseModel).save true true cn fid now cache live
        = ({ r with id := some s },
            add_document cache cn (some s) ({ r with id := some s } : BaseFirebaseModel).dict,
            live) := by
      unfold BaseFirebaseModel.save
      simp [hs]
    rw [hsave]
    exact ⟨rfl, get_document_add_self _ _ _ _⟩

/-- C3 witness: the amended insert behaviour at a concrete record that
already has a non-empty id, saved with `generate_new_id = true`. -/
theorem C3_insert_amended_witness :
    ((idFalsy ({ id := some "zz" } : BaseFirebaseModel).id = true ∨ true = true)
      ∧ "abc".isEmpty = false)
    ∧ (((({ id := some "zz" } : BaseFirebaseModel).save true false "Things" "f1" 7 [] []).1.id
          = some "f1"
        ∧ (({ id := some "zz" } : BaseFirebaseModel).save true false "Things"
            "f1" 7 [] []).1.created_at
          = ({ id := some "zz" } : BaseFirebaseModel).created_at
        ∧ (({ id := some "zz" } : BaseFirebaseModel).save true false "Things"
            "f1" 7 [] []).1.updated_at
          = ({ id := some "zz" } : BaseFirebaseModel).updated_at
        ∧ (∃ d, assocGet (getLiveColl
              (({ id := some "zz" } : BaseFirebaseModel).save true false "Things"
                "f1" 7 [] []).2.2 "Things") "f1" = some d
            ∧ assocGet d "created_at" = some (Value.vnat 7)
            ∧ assocGet d "updated_at" = some (Value.vnat 7)))
      ∧ (idFalsy ({ id := some "zz" } : BaseFirebaseModel).id = true →
          (({ id := some "zz" } : BaseFirebaseModel).save true true "Things" "f1" 7 [] []).1
            = { ({ id := some "zz" } : BaseFirebaseModel) with id := some "f1" }
          ∧ get_document (({ id := some "zz" } : BaseFirebaseModel).save true true "Things"
              "f1" 7 [] []).2.1 "Things" (some "f1")
            = some ({ id := some "zz" } : BaseFirebaseModel).dict)
      ∧ ((({ ({ id := some "zz" } : BaseFirebaseModel) with
              id := some "abc" } : BaseFirebaseModel).save true true "Things" "f1" 7 [] []).1
          = { ({ id := some "zz" } : BaseFirebaseModel) with id := some "abc" }
        ∧ get_document (({ ({ id := some "zz" } : BaseFirebaseModel) with
              id := some "abc" } : BaseFirebaseModel).save true true "Things"
              "f1" 7 [] []).2.1 "Things" (some "abc")
          = some ({ ({ id := some "zz" } : BaseFirebaseModel) with
              id := some "abc" } : BaseFirebaseModel).dict)) :=
  ⟨⟨Or.inr rfl, by decide⟩,
    C3_insert_amended { id := some "zz" } [] [] "Things" "f1" "abc" 7 true
      (Or.inr rfl) (by decide)⟩

/-- C4 counterexample: in test mode, saving an already-persisted record (a
write that mutates persisted state) stores the stale in-memory
`updated_at = 1` unchanged although the write happens at time 7 — the
update timestamp is not refreshed. -/
theorem C4_updated_at_cex :
    get_document (({ id := some "abc", updated_at := some 1 } : BaseFirebaseModel).save
        false true "Things" "f2f2f2f2f2f2f2f2f2f2" 7 [] []).2.1 "Things" (some "abc")
      = some [("id", Value.vstr "abc"), ("created_at", Value.vnull),
          ("updated_at", Value.vnat 1)] := rfl

theorem reservedFree_ne (fs : List (String × Value)) (h : reservedFree fs) :
    (∀ kv ∈ fs, kv.1 ≠ "id") ∧ (∀ kv ∈ fs, kv.1 ≠ "created_at")
      ∧ (∀ kv ∈ fs, kv.1 ≠ "updated_at") := by
  refine ⟨fun kv hkv => ?_, fun kv hkv => ?_, fun kv hkv => ?_⟩ <;>
    · have h2 := h kv hkv
      simp [reservedKey] at h2
      tauto

/-- C4, corrected.  The claim says every mutating write refreshes the
update timestamp in both modes.  In the code only live-mode save does:
(a) live insert and (b) live update stamp the stored `updated_at` with the
write time, but (c) test-mode save persists the record's in-memory
`updated_at` unchanged, (d) test-mode merge persists whatever `updated_at`
the record already had (unchanged when `update_data` does not set it), and
(e) live-mode merge performs no store write at all. -/
theorem C4_updated_at_amended (r : BaseFirebaseModel) (cache : Store) (live : LiveStore)
    (cn fid s : String) (now : Nat)
    (ud : List (String × Value)) (ex : List String) (ow : Bool)
    (hs : s.isEmpty = false) (hf : reservedFree r.fields)
    (hud : ∀ kv ∈ ud, kv.1 ≠ "updated_at") :
    (∃ d, assocGet (getLiveColl
          (({ r with id := none } : BaseFirebaseModel).save false false cn fid now
            cache live).2.2 cn) fid
        = some d ∧ assocGet d "updated_at" = some (Value.vnat now))
    ∧ (∃ d, assocGet (getLiveColl
          (({ r with id := some s } : BaseFirebaseModel).save false false cn fid now
            cache live).2.2 cn) s
        = some d ∧ assocGet d "updated_at" = some (Value.vnat now))
    ∧ get_document (({ r with id := some s } : BaseFirebaseModel).save false true cn fid now
          cache live).2.1 cn (some s)
        = some ({ r with id := some s } : BaseFirebaseModel).dict
    ∧ (∃ d, get_document (r.merge ud ow ex true cn cache).2.2 cn (applyUpdates r ud ex).id
          = some d ∧ assocGet d "updated_at" = some (optNatVal r.updated_at))
    ∧ (r.merge ud ow ex false cn cache).2.2 = cache := by
  refine ⟨?_, ?_, ?_, ?_, ?_⟩
  · have hsave : ({ r with id := none } : BaseFirebaseModel).save false false cn fid now cache live
        = ({ r with id := some fid }, cache,
            setLiveColl live cn (assocSet (getLiveColl live cn) fid
              (assocSet (assocSet r.fields "created_at" (.vnat now))
                "updated_at" (.vnat now)))) := by
      unfold BaseFirebaseModel.save
      simp [idFalsy]
    rw [hsave]
    refine ⟨assocSet (assocSet r.fields "created_at" (.vnat now)) "updated_at" (.vnat now),
      ?_, ?_⟩
    · unfold getLiveColl setLiveColl
      rw [assocGet_set_self]
      show assocGet (assocSet (getLiveColl live cn) fid _) fid = _
      rw [assocGet_set_self]
    · exact assocGet_set_self _ _ _
  · have hsave : ({ r with id := some s } : BaseFirebaseModel).save false false cn fid now cache live
        = ({ r with id := some s }, cache,
            setLiveColl live cn (set_merge (getLiveColl live cn) s
              (assocSet ({ r with id := some s } : BaseFirebaseModel).dict
                "updated_at" (.vnat now)))) := by
      unfold BaseFirebaseModel.save
      simp [idFalsy, hs]
    rw [hsave]
    have hdata : assocSet ({ r with id := some s } : BaseFirebaseModel).dict
          "updated_at" (Value.vnat now)
        = [("id", optStrVal (some s)), ("created_at", optNatVal r.created_at)]
            ++ ("updated_at", Value.vnat now) :: r.fields := by
      simp [BaseFirebaseModel.dict, assocSet]
    refine ⟨docUpdate ((assocGet (getLiveColl live cn) s).getD [])
        (assocSet ({ r with id := some s } : BaseFirebaseModel).dict
          "updated_at" (.vnat now)), ?_, ?_⟩
    · unfold getLiveColl setLiveColl set_merge
      rw [assocGet_set_self]
      exact assocGet_set_self _ _ _
    · rw [hdata]
      exact docUpdate_get_last _ _ _ _ _ ((reservedFree_ne r.fields hf).2.2)
  · have hsave : ({ r with id := some s } : BaseFirebaseModel).save false true cn fid now cache live
        = ({ r with id := some s },
            add_document cache cn (some s) ({ r with id := some s } : BaseFirebaseModel).dict,
            live) := by
      unfold BaseFirebaseModel.save
      simp [hs]
    rw [hsave]
    exact get_document_add_self _ _ _ _
  · have hmerge : r.merge ud ow ex true cn cache
        = (applyUpdates r ud ex, ex, update_document cache cn (applyUpdates r ud ex).id
            (applyUpdates r ud ex).dict) := by
      unfold BaseFirebaseModel.merge
      simp
    rw [hmerge]
    refine ⟨(applyUpdates r ud ex).dict, ?_, ?_⟩
    · unfold update_document
      exact get_document_add_self _ _ _ _
    · simp [BaseFirebaseModel.dict, assocGet, applyUpdates_updated_at r ud ex hud]
  · unfold BaseFirebaseModel.merge
    simp

/-- C4 witness: the amended update-timestamp behaviour at a concrete
record. -/
theorem C4_updated_at_amended_witness :
    ("abc".isEmpty = false ∧ reservedFree ({} : BaseFirebaseModel).fields
      ∧ (∀ kv ∈ ([("x", Value.vnat 1)] : List (String × Value)), kv.1 ≠ "updated_at"))
    ∧ ((∃ d, assocGet (getLiveColl
          (({ ({} : BaseFirebaseModel) with id := none } : BaseFirebaseModel).save false false
            "Things" "f3" 7 [] []).2.2 "Things") "f3"
        = some d ∧ assocGet d "updated_at" = some (Value.vnat 7))
    ∧ (∃ d, assocGet (getLiveColl
          (({ ({} : BaseFirebaseModel) with id := some "abc" } : BaseFirebaseModel).save false
            false "Things" "f3" 7 [] []).2.2 "Things") "abc"
        = some d ∧ assocGet d "updated_at" = some (Value.vnat 7))
    ∧ get_document (({ ({} : BaseFirebaseModel) with id := some "abc" } : BaseFirebaseModel).save
          false true "Things" "f3" 7 [] []).2.1 "Things" (some "abc")
        = some ({ ({} : BaseFirebaseModel) with id := some "abc" } : BaseFirebaseModel).dict
    ∧ (∃ d, get_document (({} : BaseFirebaseModel).merge [("x", Value.vnat 1)] false [] true
          "Things" []).2.2 "Things" (applyUpdates {} [("x", Value.vnat 1)] []).id
        = some d ∧ assocGet d "updated_at" = some (optNatVal ({} : BaseFirebaseModel).updated_at))
    ∧ (({} : BaseFirebaseModel).merge [("x", Value.vnat 1)] false [] false "Things" []).2.2
        = []) :=
  ⟨⟨by decide, by decide, by decide⟩,
    C4_updated_at_amended {} [] [] "Things" "f3" "abc" 7 [("x", Value.vnat 1)] [] false
      (by decide) (by decide) (by decide)⟩

/-- C5 counterexample: the stored creation timestamp is overwritten.  A
record persisted with `created_at = 5` is merged in test mode with
`update_data = {"created_at": 99}`; the stored document's creation
timestamp becomes 99. -/
theorem C5_created_at_cex :
    get_document ((({ id := some "d1", created_at := some 5 } : BaseFirebaseModel).merge
        [("created_at", Value.vnat 99)] false [] true "Things"
        [("Things", [(some "d1",
          [("id", Value.vstr "d1"), ("created_at", Value.vnat 5),
            ("updated_at", Value.vnull)])])]).2.2) "Things" (some "d1")
      = some [("id", Value.vstr "d1"), ("created_at", Value.vnat 99),
          ("updated_at", Value.vnull)] := rfl

/-- C5, corrected.  The claim says the creation timestamp, once set at
insert, is never overwritten.  Only the live insert path protects it: (a)
a live save-as-update writes the record's current in-memory `created_at`
into the stored document (overwriting the stored value when they differ),
(b) a test-mode save overwrites the stored document wholesale with
`self.dict()`, including its `created_at`, and (c) a test-mode merge whose
`update_data` carries `created_at` persists that new value. -/
theorem C5_created_at_amended (r : BaseFirebaseModel) (cache : Store) (live : LiveStore)
    (cn fid s : String) (now t : Nat)
    (hs : s.isEmpty = false) (hf : reservedFree r.fields) :
    (∃ d, assocGet (getLiveColl
          (({ r with id := some s } : BaseFirebaseModel).save false false cn fid now
            cache live).2.2 cn) s
        = some d ∧ assocGet d "created_at" = some (optNatVal r.created_at))
    ∧ get_document (({ r with id := some s } : BaseFirebaseModel).save false true cn fid now
          cache live).2.1 cn (some s)
        = some ({ r with id := some s } : BaseFirebaseModel).dict
    ∧ (∃ d, get_document (r.merge [("created_at", Value.vnat t)] false [] true cn cache).2.2
          cn r.id = some d ∧ assocGet d "created_at" = some (Value.vnat t)) := by
  refine ⟨?_, ?_, ?_⟩
  · have hsave : ({ r with id := some s } : BaseFirebaseModel).save false false cn fid now cache live
        = ({ r with id := some s }, cache,
            setLiveColl live cn (set_merge (getLiveColl live cn) s
              (assocSet ({ r with id := some s } : BaseFirebaseModel).dict
                "updated_at" (.vnat now)))) := by
      unfold BaseFirebaseModel.save
      simp [idFalsy, hs]
    rw [hsave]
    have hdata : assocSet ({ r with id := some s } : BaseFirebaseModel).dict
          "updated_at" (Value.vnat now)
        = [("id", optStrVal (some s))]
            ++ ("created_at", optNatVal r.created_at)
              :: ("updated_at", Value.vnat now) :: r.fields := by
      simp [BaseFirebaseModel.dict, assocSet]
    refine ⟨docUpdate ((assocGet (getLiveColl live cn) s).getD [])
        (assocSet ({ r with id := some s } : BaseFirebaseModel).dict
          "updated_at" (.vnat now)), ?_, ?_⟩
    · unfold getLiveColl setLiveColl set_merge
      rw [assocGet_set_self]
      exact assocGet_set_self _ _ _
    · rw [hdata]
      refine docUpdate_get_last _ _ _ _ _ ?_
      intro kv hkv
      rcases List.mem_cons.mp hkv with h1 | h2
      · rw [h1]
        simp
      · exact (reservedFree_ne r.fields hf).2.1 kv h2
  · have hsave : ({ r with id := some s } : BaseFirebaseModel).save false true cn fid now cache live
        = ({ r with id := some s },
            add_document cache cn (some s) ({ r with id := some s } : BaseFirebaseModel).dict,
            live) := by
      unfold BaseFirebaseModel.save
      simp [hs]
    rw [hsave]
    exact get_document_add_self _ _ _ _
  · have happly : applyUpdates r [("created_at", Value.vnat t)] []
        = { r with created_at := some t } := by
      simp [applyUpdates, setField, valOptNat]
    have hmerge : r.merge [("created_at", Value.vnat t)] false [] true cn cache
        = ({ r with created_at := some t }, [],
            update_document cache cn r.id ({ r with created_at := some t } : BaseFirebaseModel).dict) := by
      unfold BaseFirebaseModel.merge
      rw [happly]
      simp
    rw [hmerge]
    refine ⟨({ r with created_at := some t } : BaseFirebaseModel).dict, ?_, ?_⟩
    · unfold update_document
      exact get_document_add_self _ _ _ _
    · simp [BaseFirebaseModel.dict, assocGet, optNatVal]

/-- C5 witness: the amended creation-timestamp behaviour at a concrete
record. -/
theorem C5_created_at_amended_witness :
    ("abc".isEmpty = false ∧ reservedFree ({} : BaseFirebaseModel).fields)
    ∧ ((∃ d, assocGet (getLiveColl
          (({ ({} : BaseFirebaseModel) with id := some "abc" } : BaseFirebaseModel).save false
            false "Things" "f4" 7 [] []).2.2 "Things") "abc"
        = some d ∧ assocGet d "created_at" = some (optNatVal ({} : BaseFirebaseModel).created_at))
    ∧ get_document (({ ({} : BaseFirebaseModel) with id := some "abc" } : BaseFirebaseModel).save
          false true "Things" "f4" 7 [] []).2.1 "Things" (some "abc")
        = some ({ ({} : BaseFirebaseModel) with id := some "abc" } : BaseFirebaseModel).dict
    ∧ (∃ d, get_document (({} : BaseFirebaseModel).merge [("created_at", Value.vnat 9)] false []
          true "Things" []).2.2 "Things" ({} : BaseFirebaseModel).id
        = some d ∧ assocGet d "created_at" = some (Value.vnat 9))) :=
  ⟨⟨by decide, by decide⟩,
    C5_created_at_amended {} [] [] "Things" "f4" "abc" 7 9 (by decide) (by decide)⟩

/-- C6 witness: three documents, page size two. -/
theorem C6_pagination_roundtrip_witness :
    1 ≤ 2
    ∧ (List.range (ceilDiv (filteredDocs
          [("Things", [(some "a", [("n", Value.vnat 1)]), (some "b", [("n", Value.vnat 2)]),
            (some "c", [("n", Value.vnat 3)])])] "Things" [] []).length 2)).flatMap
        (fun i => BaseFirebaseModel.get_page "Things" (i + 1) 2 [] [] true
          [("Things", [(some "a", [("n", Value.vnat 1)]), (some "b", [("n", Value.vnat 2)]),
            (some "c", [("n", Value.vnat 3)])])] [])
      = (filteredDocs [("Things", [(some "a", [("n", Value.vnat 1)]),
            (some "b", [("n", Value.vnat 2)]), (some "c", [("n", Value.vnat 3)])])]
          "Things" [] []).map BaseFirebaseModel.ofDict :=
  ⟨by decide,
    C6_pagination_roundtrip
      [("Things", [(some "a", [("n", Value.vnat 1)]), (some "b", [("n", Value.vnat 2)]),
        (some "c", [("n", Value.vnat 3)])])] [] "Things" [] [] 2 (by decide)⟩

theorem acMatch_red (d : Doc) (h : listValued (assocGet d "tags") = true) :
    acMatch d ("tags", Value.vstr "red") = tagsHasRed d := by
  unfold acMatch tagsHasRed
  cases hg : assocGet d "tags" with
  | none => simp [listValued, hg] at h
  | some c =>
      cases c with
      | vlist l =>
          cases l with
          | nil => simp [truthy, pyIn]
          | cons a t => simp [truthy, pyIn]
      | vnull => simp [listValued, hg] at h
      | vstr s => simp [listValued, hg] at h
      | vnat n => simp [listValued, hg] at h

/-- C7 counterexample: eleven documents all tagged "red", default paging
(page 1, page size 10): `get_page` returns ten records while the subset
whose `tags` contains "red" has eleven — the result is not exactly the
subset. -/
theorem C7_array_contains_cex :
    (BaseFirebaseModel.get_page "Things" 1 10 [] [("tags", Value.vstr "red")] true
        [("Things", [(some "a0", [("tags", Value.vlist ["red"])]),
          (some "a1", [("tags", Value.vlist ["red"])]),
          (some "a2", [("tags", Value.vlist ["red"])]),
          (some "a3", [("tags", Value.vlist ["red"])]),
          (some "a4", [("tags", Value.vlist ["red"])]),
          (some "a5", [("tags", Value.vlist ["red"])]),
          (some "a6", [("tags", Value.vlist ["red"])]),
          (some "a7", [("tags", Value.vlist ["red"])]),
          (some "a8", [("tags", Value.vlist ["red"])]),
          (some "a9", [("tags", Value.vlist ["red"])]),
          (some "aa", [("tags", Value.vlist ["red"])])])] []).length = 10
    ∧ ((list_collection [("Things", [(some "a0", [("tags", Value.vlist ["red"])]),
          (some "a1", [("tags", Value.vlist ["red"])]),
          (some "a2", [("tags", Value.vlist ["red"])]),
          (some "a3", [("tags", Value.vlist ["red"])]),
          (some "a4", [("tags", Value.vlist ["red"])]),
          (some "a5", [("tags", Value.vlist ["red"])]),
          (some "a6", [("tags", Value.vlist ["red"])]),
          (some "a7", [("tags", Value.vlist ["red"])]),
          (some "a8", [("tags", Value.vlist ["red"])]),
          (some "a9", [("tags", Value.vlist ["red"])]),
          (some "aa", [("tags", Value.vlist ["red"])])])] "Things").filter
        tagsHasRed).length = 11 :=
  ⟨rfl, rfl⟩

/-- C7, corrected.  The claim says `get_page(array_contains={"tags":
"red"})` in test mode returns exactly the subset whose `tags` list
contains "red"; the code windows that subset by the page arguments.
Amended: on a collection whose documents all carry a list-valued `tags`
field, the call (page 1, page size P) returns the first P records of that
subset, and returns exactly the subset whenever it has at most P
records. -/
theorem C7_array_contains_amended (cache : Store) (live : LiveStore) (cn : String) (P : Nat)
    (hl : ∀ d ∈ list_collection cache cn, listValued (assocGet d "tags") = true) :
    BaseFirebaseModel.get_page cn 1 P [] [("tags", Value.vstr "red")] true cache live
      = (((list_collection cache cn).filter tagsHasRed).map BaseFirebaseModel.ofDict).take P
    ∧ (((list_collection cache cn).filter tagsHasRed).length ≤ P →
        BaseFirebaseModel.get_page cn 1 P [] [("tags", Value.vstr "red")] true cache live
          = ((list_collection cache cn).filter tagsHasRed).map BaseFirebaseModel.ofDict) := by
  have hfd : filteredDocs cache cn [] [("tags", Value.vstr "red")]
      = (list_collection cache cn).filter tagsHasRed := by
    unfold filteredDocs query_collection
    simp only [List.isEmpty_cons, List.all_nil, List.filter_true, Bool.false_eq_true,
      if_false, List.all_cons, Bool.and_true]
    exact List.filter_congr (fun d hd => acMatch_red d (hl d hd))
  have hmain : BaseFirebaseModel.get_page cn 1 P [] [("tags", Value.vstr "red")] true cache live
      = (((list_collection cache cn).filter tagsHasRed).map BaseFirebaseModel.ofDict).take P := by
    rw [get_page_test, hfd]
    simp [List.map_take]
  refine ⟨hmain, fun hlen => ?_⟩
  rw [hmain, List.take_of_length_le]
  rw [List.length_map]
  exact hlen

/-- C7 witness: two documents with list-valued tags, page size 10. -/
theorem C7_array_contains_amended_witness :
    (∀ d ∈ list_collection [("Things",
        [(some "a", [("tags", Value.vlist ["red"])]),
          (some "b", [("tags", Value.vlist ["blue"])])])] "Things",
      listValued (assocGet d "tags") = true)
    ∧ (BaseFirebaseModel.get_page "Things" 1 10 [] [("tags", Value.vstr "red")] true
        [("Things", [(some "a", [("tags", Value.vlist ["red"])]),
          (some "b", [("tags", Value.vlist ["blue"])])])] []
      = (((list_collection [("Things", [(some "a", [("tags", Value.vlist ["red"])]),
            (some "b", [("tags", Value.vlist ["blue"])])])] "Things").filter
          tagsHasRed).map BaseFirebaseModel.ofDict).take 10
    ∧ (((list_collection [("Things", [(some "a", [("tags", Value.vlist ["red"])]),
            (some "b", [("tags", Value.vlist ["blue"])])])] "Things").filter
          tagsHasRed).length ≤ 10 →
        BaseFirebaseModel.get_page "Things" 1 10 [] [("tags", Value.vstr "red")] true
            [("Things", [(some "a", [("tags", Value.vlist ["red"])]),
              (some "b", [("tags", Value.vlist ["blue"])])])] []
          = ((list_collection [("Things", [(some "a", [("tags", Value.vlist ["red"])]),
              (some "b", [("tags", Value.vlist ["blue"])])])] "Things").filter
              tagsHasRed).map BaseFirebaseModel.ofDict)) :=
  ⟨by decide,
    C7_array_contains_amended
      [("Things", [(some "a", [("tags", Value.vlist ["red"])]),
        (some "b", [("tags", Value.vlist ["blue"])])])] [] "Things" 10 (by decide)⟩

/-- C8: for an id absent from the active store, `get_by_id` returns `none`
in both modes.  The embedding is total, mirroring the source: the only
construction that could fail (`cls(**data)`) is guarded by the
existence / truthiness check, so no exception path exists. -/
theorem C8_get_by_id_absent (cache : Store) (live : LiveStore) (cn doc_id : String)
    (h1 : get_document cache cn (some doc_id) = none)
    (h2 : assocGet (getLiveColl live cn) doc_id = none) :
    BaseFirebaseModel.get_by_id cn doc_id true cache live = none
    ∧ BaseFirebaseModel.get_by_id cn doc_id false cache live = none := by
  constructor
  · unfold BaseFirebaseModel.get_by_id
    simp [h1]
  · unfold BaseFirebaseModel.get_by_id
    simp [h2]

/-- C8 witness: empty stores, any id. -/
theorem C8_get_by_id_absent_witness :
    (get_document [] "Things" (some "zz") = none
      ∧ assocGet (getLiveColl [] "Things") "zz" = none)
    ∧ (BaseFirebaseModel.get_by_id "Things" "zz" true [] [] = none
      ∧ BaseFirebaseModel.get_by_id "Things" "zz" false [] [] = none) :=
  ⟨⟨rfl, rfl⟩, C8_get_by_id_absent [] [] "Things" "zz" rfl rfl⟩

/-- C9: the live-mode branch of `merge` extends the caller's
`exclude_props` list object in place with `"id"` and `"created_at"`
(only `"created_at"` when `overwrite_id` is true); since the parameter
defaults to one shared mutable list, a later call omitting the argument
starts from the accumulated list — here the second call, although it
passes `overwrite_id = true`, can no longer update the id because `"id"`
was appended by the earlier call, and the list grows again. -/
theorem C9_merge_default_accumulates (r r2 : BaseFirebaseModel)
    (ud : List (String × Value)) (cn cn2 : String) (cache cache2 : Store) (x : String) :
    (r.merge ud false [] false cn cache).2.1 = ["id", "created_at"]
    ∧ (r.merge ud true [] false cn cache).2.1 = ["created_at"]
    ∧ (r2.merge [("id", Value.vstr x)] true
        (r.merge ud false [] false cn cache).2.1 false cn2 cache2).1.id = r2.id
    ∧ (r2.merge [("id", Value.vstr x)] true
        (r.merge ud false [] false cn cache).2.1 false cn2 cache2).2.1
      = ["id", "created_at", "created_at"] :=
  ⟨rfl, rfl, rfl, rfl⟩

/-- C10: in test mode `get_by_ids` returns the found records in the same
relative order as the input ids, silently omitting ids with no stored
document.  (The hypothesis that stored field mappings are non-empty holds
for every document the model layer itself writes, since `self.dict()`
always carries the three base fields; it rules out the degenerate
empty-mapping document, which the truthiness check would also omit.) -/
theorem C10_get_by_ids_order (cache : Store) (live : LiveStore) (cn : String)
    (ids : List String)
    (h : ∀ kv ∈ getCollection cache cn, kv.2.isEmpty = false) :
    BaseFirebaseModel.get_by_ids cn ids true cache live
      = ids.filterMap
          (fun i => (get_document cache cn (some i)).map BaseFirebaseModel.ofDict) := by
  unfold BaseFirebaseModel.get_by_ids
  rw [if_pos rfl]
  suffices aux : ∀ (l : List String) (acc : List BaseFirebaseModel),
      l.foldl (fun documents doc_id =>
        match get_document cache cn (some doc_id) with
        | some doc_data =>
            if doc_data.isEmpty then documents
            else documents ++ [BaseFirebaseModel.ofDict doc_data]
        | none => documents) acc
      = acc ++ l.filterMap
          (fun i => (get_document cache cn (some i)).map BaseFirebaseModel.ofDict) by
    simpa using aux ids []
  intro l
  induction l with
  | nil => intro acc; simp
  | cons i rest ih =>
      intro acc
      rw [List.foldl_cons, List.filterMap_cons]
      cases hg : get_document cache cn (some i) with
      | none =>
          simp only [hg]
          rw [ih]
          simp
      | some d =>
          have hne : d.isEmpty = false := h (some i, d) (assocGet_mem _ _ _ hg)
          simp only [hg, hne, Option.map_some]
          rw [ih]
          simp

/-- C10 witness: two stored documents, one unknown id in the middle of the
input list. -/
theorem C10_get_by_ids_order_witness :
    (∀ kv ∈ getCollection [("Things",
        [(some "b", [("n", Value.vnat 2)]), (some "a", [("n", Value.vnat 1)])])] "Things",
      kv.2.isEmpty = false)
    ∧ BaseFirebaseModel.get_by_ids "Things" ["a", "zz", "b"] true
        [("Things", [(some "b", [("n", Value.vnat 2)]), (some "a", [("n", Value.vnat 1)])])] []
      = ["a", "zz", "b"].filterMap
          (fun i => (get_document [("Things",
            [(some "b", [("n", Value.vnat 2)]), (some "a", [("n", Value.vnat 1)])])]
            "Things" (some i)).map BaseFirebaseModel.ofDict) :=
  ⟨by decide,
    C10_get_by_ids_order
      [("Things", [(some "b", [("n", Value.vnat 2)]), (some "a", [("n", Value.vnat 1)])])]
      [] "Things" ["a", "zz", "b"] (by decide)⟩
